import Mathlib

/-!
The upload handler of s3-file-upload (`main.go`).

A shallow embedding of `uploadFileHandler` and `uploadToS3` (src/main.go) with the
library calls they make, and the properties of the handler proved over it.

Conventions of the embedding:
* Go strings are Lean `String`s; the scans of `filepath.Base` look only for the
  ASCII byte `/`, so they read the same on characters as on UTF-8 bytes.
* `filepath.Base` is the Unix one (separator `/`, no volume names).
* `time.Now().Unix()` is an `int64`; it is an `Int` here, and `%d` prints every
  integer the way Go prints an `int64` of that value.
* The response writer, the calls made to the uploader and the log are recorded
  in an explicit state threaded through the handler; `defer file.Close()` leaves
  no mark on that state and is left out.
* The two methods of `http.Request` the handler calls, `ParseMultipartForm` and
  `FormFile`, are a parameter of the handler (fields of `World`): the theorems on
  the handler hold for every behaviour of the two calls. Go's own behaviour is
  given by the functions `ParseMultipartForm` and `FormFile`, with the limits of
  the form reader of `mime/multipart`, on the body as that reader sees it (`Body`);
  the worlds `okWorld` and `errWorld` use them.
-/

namespace S3Upload

/-! ## Constants (main.go:18-21) -/

/-- The target bucket, `bucketName`. -/
def bucketName : String := "file-upload-project-dt"

/-- The target region, `region`. -/
def region : String := "eu-central-1"

/-- The name of the accepted method, `http.MethodPost`. -/
def MethodPost : String := "POST"

/-- The status `http.StatusMethodNotAllowed`. -/
def StatusMethodNotAllowed : Nat := 405

/-- The status `http.StatusInternalServerError`. -/
def StatusInternalServerError : Nat := 500

/-- The status `http.StatusOK`, sent by the first `Write` when no header was written. -/
def StatusOK : Nat := 200

/-! ## `fmt`: the verbs `%d` and `%s` -/

/-- The character of a decimal digit, `'0' + d`. -/
def digit (d : Nat) : Char := Char.ofNat (48 + d)

/-- The digit loop of `fmt` for base 10: while `u >= 10` the last digit of `u` is
put in front of the buffer and `u` becomes `u / 10`; the last `u < 10` is put in
front at the end. `fuel` bounds the number of turns. -/
def fmtDigits : Nat → Nat → List Char → List Char
  | 0, u, buf => digit u :: buf
  | fuel + 1, u, buf =>
    if 10 ≤ u then fmtDigits fuel (u / 10) (digit (u % 10) :: buf) else digit u :: buf

/-- The decimal digits of an unsigned value; `u` turns are always enough. -/
def fmtUint (u : Nat) : List Char := fmtDigits u u []

/-- The verb `%d` on a signed integer: a negative value is negated, its digits are
written, and a `-` is put in front. -/
def fmtInt (t : Int) : List Char :=
  if t < 0 then '-' :: fmtUint t.natAbs else fmtUint t.natAbs

/-! ## `path/filepath`: `Base` -/

/-- The loop `for len(path) > 0 && IsPathSeparator(path[len(path)-1])` of
`filepath.Base`, on the reversed path: leading separators are dropped. -/
def stripSeparators : List Char → List Char
  | [] => []
  | c :: cs => if c = '/' then stripSeparators cs else c :: cs

/-- The loop `for i >= 0 && !IsPathSeparator(path[i]) { i-- }` of `filepath.Base`,
on the reversed path: the characters before the first separator are kept. -/
def lastElement : List Char → List Char
  | [] => []
  | c :: cs => if c = '/' then [] else c :: lastElement cs

/-- The function `filepath.Base`: the last element of the path. Trailing separators
are removed before the last element is taken; the empty path gives `.` and a path
of separators only gives a single separator. -/
def Base (path : String) : String :=
  if path = "" then "."
  else
    let last := (lastElement (stripSeparators path.data.reverse)).reverse
    if last = [] then "/" else String.mk last

/-- The call `fmt.Sprintf("%d-%s", t, b)` of main.go:64. -/
def sprintfKey (t : Int) (b : String) : String :=
  String.mk (fmtInt t) ++ "-" ++ b

/-- The object key of main.go:64, `fmt.Sprintf("%d-%s", time.Now().Unix(),
filepath.Base(handler.Filename))`. -/
def objectKey (now : Int) (Filename : String) : String :=
  sprintfKey now (Base Filename)

/-- The URL of main.go:74,
`fmt.Sprintf("https://%s.s3.%s.amazonaws.com/%s", bucketName, region, filename)`. -/
def fileURL (filename : String) : String :=
  "https://" ++ bucketName ++ ".s3." ++ region ++ ".amazonaws.com/" ++ filename

/-! ## `net/http`: the response writer -/

/-- What the handler has sent through its `http.ResponseWriter`: the status line,
once written, and the `Write` calls in order. Header fields are left out. -/
structure ResponseWriter where
  status : Option Nat
  written : List String
deriving DecidableEq

/-- The body the client receives: the written chunks, concatenated. -/
def ResponseWriter.body (w : ResponseWriter) : String := String.join w.written

/-- The method `WriteHeader`: the first status sent is the one that counts. -/
def ResponseWriter.WriteHeader (w : ResponseWriter) (code : Nat) : ResponseWriter :=
  match w.status with
  | some _ => w
  | none => { w with status := some code }

/-- The method `Write`: sends `StatusOK` first when no status was sent yet. -/
def ResponseWriter.Write (w : ResponseWriter) (data : String) : ResponseWriter :=
  let w := w.WriteHeader StatusOK
  { w with written := w.written ++ [data] }

/-- The function `http.Error`: sends the status `code`, then the message as a line
(`fmt.Fprintln(w, error)`). -/
def httpError (w : ResponseWriter) (error : String) (code : Nat) : ResponseWriter :=
  (w.WriteHeader code).Write (error ++ "\n")

/-! ## `mime/multipart` and `net/http`: the form of a request -/

/-- One part of a `multipart/form-data` body as the multipart reader yields it: its
MIME header (the keys with their values), the field name and the file name that
`FormName()` and `FileName()` read from it (the file name is empty for a plain
value), and the bytes. -/
structure Part where
  Header : List (String × List String)
  FormName : String
  FileName : String
  data : List Nat
deriving DecidableEq

/-- The type `multipart.FileHeader`: `content` holds the bytes of a file kept in
memory and is `none` (nil) for a file written to disk, whose bytes are then
those of the temporary file, `tmpfile`. -/
structure FileHeader where
  Filename : String
  Size : Nat
  content : Option (List Nat)
  tmpfile : List Nat
deriving DecidableEq

/-- The method `FileHeader.Open`: the bytes in memory, else those of the temporary
file. -/
def FileHeader.Open (fh : FileHeader) : List Nat :=
  match fh.content with
  | some b => b
  | none => fh.tmpfile

/-- The files of a `multipart.Form`: the field names with their file headers, in
the order read. The plain values are left out, the handler never reads them. -/
abbrev Form := List (String × FileHeader)

/-- The body of a request as the multipart reader sees it: either there is nothing
in it to read as a form (not `multipart/form-data`, broken, or read already), or it
is a sequence of parts. -/
inductive Body where
  | unreadable
  | multipart (parts : List Part)
deriving DecidableEq

/-- The part of `http.Request` the handler uses: the method, the body, and the field
`MultipartForm`, `none` (nil) until a form was parsed. -/
structure Request where
  Method : String
  Body : Body
  MultipartForm : Option Form
deriving DecidableEq

/-- The error `multipart.ErrMessageTooLarge`. -/
def ErrMessageTooLarge : String := "multipart: message too large"

/-- The error `http.ErrMissingFile`. -/
def ErrMissingFile : String := "http: no such file"

/-- The error `http.ErrNotMultipart`. -/
def ErrNotMultipart : String := "request Content-Type isn't multipart/form-data"

/-- The function `mimeHeaderSize` of `mime/multipart`: 400 bytes for the map, and for
each key its length, 200 bytes for the map entry and the lengths of its values. -/
def mimeHeaderSize (h : List (String × List String)) : Int :=
  400 + (h.map (fun kv =>
    (kv.1.utf8ByteSize : Int) + 200 + (kv.2.map (fun v => (v.utf8ByteSize : Int))).sum)).sum

/-- The number of header lines of a MIME header. -/
def headerCount (h : List (String × List String)) : Int :=
  (h.map (fun kv => (kv.2.length : Int))).sum

/-- The method `Reader.readForm` of `mime/multipart` (Go 1.20 and later) on the parts
of a body. It fails with `ErrMessageTooLarge`
* when the header of a part is larger than the memory left or has more lines than
  the headers left (the limits given to `nextPart`),
* at the part after the `maxParts`-th,
* when the memory left, `maxMemoryBytes`, falls below zero: it is charged the name
  of each field and 200 bytes, the bytes of each plain value, and for each file the
  size of its header, 300 bytes and the bytes of a file kept in memory.
A part without a field name is skipped, a part without a file name is a plain
value. A file is kept in memory while it fits in what is left of
`maxFileMemoryBytes`; otherwise it is written to a temporary file, and it is never
refused for its size. -/
def readForm : List Part → Nat → Int → Int → Int → Except String Form
  | [], _, _, _, _ => Except.ok []
  | p :: ps, maxParts, maxHeaders, maxFileMemoryBytes, maxMemoryBytes =>
    if maxMemoryBytes < mimeHeaderSize p.Header ∨ maxHeaders < headerCount p.Header then
      Except.error ErrMessageTooLarge
    else if maxParts = 0 then Except.error ErrMessageTooLarge
    else if p.FormName = "" then
      readForm ps (maxParts - 1) maxHeaders maxFileMemoryBytes maxMemoryBytes
    else
      let maxMemoryBytes := maxMemoryBytes - p.FormName.utf8ByteSize - 200
      if maxMemoryBytes < 0 then Except.error ErrMessageTooLarge
      else if p.FileName = "" then
        let n := min (p.data.length : Int) (maxMemoryBytes + 1)
        if maxMemoryBytes - n < 0 then Except.error ErrMessageTooLarge
        else readForm ps (maxParts - 1) maxHeaders maxFileMemoryBytes (maxMemoryBytes - n)
      else
        let maxMemoryBytes := maxMemoryBytes - mimeHeaderSize p.Header - 200 - 100
        if maxMemoryBytes < 0 then Except.error ErrMessageTooLarge
        else
          let maxHeaders := maxHeaders - headerCount p.Header
          let n := min (p.data.length : Int) (maxFileMemoryBytes + 1)
          if maxFileMemoryBytes < n then
            match readForm ps (maxParts - 1) maxHeaders maxFileMemoryBytes maxMemoryBytes with
            | Except.error e => Except.error e
            | Except.ok files =>
              Except.ok ((p.FormName, { Filename := p.FileName, Size := p.data.length,
                                        content := none, tmpfile := p.data }) :: files)
          else
            match readForm ps (maxParts - 1) maxHeaders (maxFileMemoryBytes - n)
                (maxMemoryBytes - n) with
            | Except.error e => Except.error e
            | Except.ok files =>
              Except.ok ((p.FormName, { Filename := p.FileName, Size := p.data.length,
                                        content := some p.data, tmpfile := [] }) :: files)

/-- The method `Reader.ReadForm(maxMemory)`: at most 1000 parts and 10000 header
lines, `maxMemory` bytes of files in memory, and `maxMemory` plus 10 MB of memory
in all. -/
def ReadForm (parts : List Part) (maxMemory : Nat) : Except String Form :=
  readForm parts 1000 10000 maxMemory (maxMemory + 10 <<< 20)

/-- The method `Request.ParseMultipartForm(maxMemory)`: the request after the call
and the error returned. A form parsed before is kept. Otherwise the body is read;
a form that was read is stored in `MultipartForm`, and after an error
`MultipartForm` stays `none`. What a read leaves of the body is not modelled: the
body counts as read. -/
def ParseMultipartForm (r : Request) (maxMemory : Nat) : Request × Option String :=
  match r.MultipartForm with
  | some _ => (r, none)
  | none =>
    match r.Body with
    | Body.unreadable => (r, some ErrNotMultipart)
    | Body.multipart parts =>
      match ReadForm parts maxMemory with
      | Except.error e => ({ r with Body := Body.unreadable }, some e)
      | Except.ok f => ({ r with Body := Body.unreadable, MultipartForm := some f }, none)

/-- The method `Request.FormFile(key)`: without a parsed form it calls
`ParseMultipartForm(32 << 20)` itself and returns its error; then it returns the
first file of the field `key`, opened, with its header, or `ErrMissingFile`. -/
def FormFile (r : Request) (key : String) : Except String (List Nat × FileHeader) :=
  let parsed : Request × Option String :=
    match r.MultipartForm with
    | none => ParseMultipartForm r (32 <<< 20)
    | some _ => (r, none)
  match parsed.2 with
  | some e => Except.error e
  | none =>
    match parsed.1.MultipartForm with
    | none => Except.error ErrMissingFile
    | some files =>
      match files.find? (fun e => e.1 = key) with
      | some (_, fh) => Except.ok (fh.Open, fh)
      | none => Except.error ErrMissingFile

/-! ## The uploader, the clock, the library and the log -/

/-- The type `s3.PutObjectInput`, with the three fields the program sets. -/
structure PutObjectInput where
  Bucket : String
  Key : String
  Body : List Nat
deriving DecidableEq

/-- What the handler calls and reads outside itself: the Unix time
`time.Now().Unix()`; the answer of `uploader.Upload` to an input, `none` for a nil
error and `some e` for an error of text `e`; and the two methods of `http.Request`
it calls, `ParseMultipartForm` (the request after the call and the error returned)
and `FormFile`. The theorems on the handler hold for every behaviour of these
calls; `okWorld` and `errWorld` give the two methods the behaviour of Go's library,
`ParseMultipartForm` and `FormFile` above. -/
structure World where
  now : Int
  Upload : PutObjectInput → Option String
  ParseMultipartForm : Request → Nat → Request × Option String
  FormFile : Request → String → Except String (List Nat × FileHeader)

/-- What a run of the handler has done: the response, the calls made to
`uploader.Upload` in order, and the messages given to `log.Printf`. -/
structure Trace where
  w : ResponseWriter
  uploads : List PutObjectInput
  log : List String
deriving DecidableEq

/-- The state before the handler runs: nothing sent, nothing uploaded, nothing
logged. -/
def Trace.init : Trace := { w := { status := none, written := [] }, uploads := [], log := [] }

/-! ## The program (main.go:46-96) -/

/-- The function `uploadToS3` (main.go:78-96): one call of `uploader.Upload` with
the bucket, the key `filename` and the file as body; the error is logged with its
text and returned, a success is logged with the key. -/
def uploadToS3 (env : World) (filename : String) (file : List Nat) (s : Trace) :
    Option String × Trace :=
  let input : PutObjectInput := { Bucket := bucketName, Key := filename, Body := file }
  let s := { s with uploads := s.uploads ++ [input] }
  match env.Upload input with
  | some err => (some err, { s with log := s.log ++ ["Failed to upload file to S3: " ++ err] })
  | none => (none, { s with log := s.log ++ ["File uploaded successfully to S3: " ++ filename] })

/-- The function `uploadFileHandler` (main.go:46-76), from the state `s`. The
error returned by `r.ParseMultipartForm(10 << 20)` is dropped (main.go:53); the
call leaves its mark on the request only, on which `r.FormFile("file")` is then
called. -/
def uploadFileHandlerFrom (env : World) (r : Request) (s : Trace) : Trace :=
  if r.Method ≠ MethodPost then
    { s with w := httpError s.w "Invalid request method" StatusMethodNotAllowed }
  else
    let r := (env.ParseMultipartForm r (10 <<< 20)).1
    match env.FormFile r "file" with
    | Except.error _ =>
      { s with w := httpError s.w "Error retrieving the file" StatusInternalServerError }
    | Except.ok (file, handler) =>
      let filename := objectKey env.now handler.Filename
      match uploadToS3 env filename file s with
      | (some _, s) =>
        { s with w := httpError s.w "Error uploading the file to S3" StatusInternalServerError }
      | (none, s) =>
        { s with w := s.w.Write ("File uploaded successfully: " ++ fileURL filename ++ "\n") }

/-- The handler on a fresh response writer. -/
def uploadFileHandler (env : World) (r : Request) : Trace :=
  uploadFileHandlerFrom env r Trace.init

/-! ## Reading a number back (used in the proofs only) -/

/-- The value of a string of decimal digits, read from the left. -/
def digitsValue (acc : Nat) (l : List Char) : Nat :=
  l.foldl (fun a c => 10 * a + (c.toNat - 48)) acc

/-- The characters `0` to `9`. -/
def IsDigit (c : Char) : Prop := 48 ≤ c.toNat ∧ c.toNat ≤ 57

instance : DecidablePred IsDigit := fun c =>
  inferInstanceAs (Decidable (48 ≤ c.toNat ∧ c.toNat ≤ 57))

/-! ## Concrete inputs -/

/-- A world at Unix time `t` with Go's library, in which every upload succeeds. -/
def okWorld (t : Int) : World :=
  { now := t, Upload := fun _ => none,
    ParseMultipartForm := ParseMultipartForm, FormFile := FormFile }

/-- The MIME header of the part of a form for a file `f` in the field `name`. -/
def fileMIMEHeader (name f : String) : List (String × List String) :=
  [("Content-Disposition", ["form-data; name=\"" ++ name ++ "\"; filename=\"" ++ f ++ "\""]),
   ("Content-Type", ["application/octet-stream"])]

/-- The part of a form for the file `f` of bytes `d` in the field `name`. -/
def filePart (name f : String) (d : List Nat) : Part :=
  { Header := fileMIMEHeader name f, FormName := name, FileName := f, data := d }

/-- A request of method `m` with a form of the parts `parts`, not parsed yet. -/
def formRequest (m : String) (parts : List Part) : Request :=
  { Method := m, Body := Body.multipart parts, MultipartForm := none }

/-- A `POST` whose form has the one field `file`, a file named `f` of bytes `d`. -/
def postFile (f : String) (d : List Nat) : Request :=
  formRequest "POST" [filePart "file" f d]

/-- A file of 11 MiB (11534336 bytes), one MiB more than `10 << 20`. -/
def bigFile : List Nat := List.replicate 11534336 0

theorem digit_toNat {d : Nat} (h : d < 10) : (digit d).toNat - 48 = d := by
  interval_cases d <;> rfl

theorem digit_isDigit {d : Nat} (h : d < 10) : IsDigit (digit d) := by
  interval_cases d <;> decide

theorem IsDigit.ne_dash {c : Char} (h : IsDigit c) : c ≠ '-' := by
  rintro rfl
  revert h
  decide

theorem IsDigit.ne_slash {c : Char} (h : IsDigit c) : c ≠ '/' := by
  rintro rfl
  revert h
  decide

theorem fmtDigits_chars : ∀ (fuel u : Nat) (buf : List Char), u ≤ fuel →
    ∀ c ∈ fmtDigits fuel u buf, IsDigit c ∨ c ∈ buf := by
  intro fuel
  induction fuel with
  | zero =>
    intro u buf hu c hc
    have h0 : u = 0 := by omega
    subst h0
    simp only [fmtDigits, List.mem_cons] at hc
    rcases hc with rfl | hc
    · exact Or.inl (digit_isDigit (by decide))
    · exact Or.inr hc
  | succ fuel ih =>
    intro u buf hu c hc
    unfold fmtDigits at hc
    split at hc
    · rcases ih (u / 10) _ (by omega) c hc with h | h
      · exact Or.inl h
      · rcases List.mem_cons.mp h with rfl | h
        · exact Or.inl (digit_isDigit (Nat.mod_lt _ (by decide)))
        · exact Or.inr h
    · rcases List.mem_cons.mp hc with rfl | hc
      · exact Or.inl (digit_isDigit (by omega))
      · exact Or.inr hc

theorem fmtDigits_value : ∀ (fuel u : Nat) (buf : List Char), u ≤ fuel →
    digitsValue 0 (fmtDigits fuel u buf) = digitsValue u buf := by
  intro fuel
  induction fuel with
  | zero =>
    intro u buf hu
    have h0 : u = 0 := by omega
    subst h0
    simp [fmtDigits, digitsValue, digit_toNat]
  | succ fuel ih =>
    intro u buf hu
    unfold fmtDigits
    split
    · rw [ih (u / 10) _ (by omega)]
      simp only [digitsValue, List.foldl_cons]
      rw [digit_toNat (Nat.mod_lt _ (by decide)), Nat.div_add_mod]
    · have hlt : u < 10 := by omega
      simp [digitsValue, digit_toNat hlt]

theorem fmtDigits_ne_nil : ∀ (fuel u : Nat) (buf : List Char), fmtDigits fuel u buf ≠ [] := by
  intro fuel
  induction fuel with
  | zero => intro u buf; simp [fmtDigits]
  | succ fuel ih =>
    intro u buf
    unfold fmtDigits
    split
    · exact ih _ _
    · simp

/-- Any fuel of at least `u` gives the same digits: the loop ends before the fuel
does. -/
theorem fmtDigits_fuel : ∀ (fuel1 fuel2 u : Nat) (buf : List Char), u ≤ fuel1 → u ≤ fuel2 →
    fmtDigits fuel1 u buf = fmtDigits fuel2 u buf := by
  intro fuel1
  induction fuel1 with
  | zero =>
    intro fuel2 u buf h1 _
    have h0 : u = 0 := by omega
    subst h0
    cases fuel2 <;> simp [fmtDigits]
  | succ fuel1 ih =>
    intro fuel2 u buf h1 h2
    cases fuel2 with
    | zero =>
      have h0 : u = 0 := by omega
      subst h0
      simp [fmtDigits]
    | succ fuel2 =>
      unfold fmtDigits
      split
      · exact ih fuel2 (u / 10) _ (by omega) (by omega)
      · rfl

theorem fmtUint_digits (u : Nat) : ∀ c ∈ fmtUint u, IsDigit c := by
  intro c hc
  rcases fmtDigits_chars u u [] (le_refl u) c hc with h | h
  · exact h
  · simp at h

theorem fmtUint_value (u : Nat) : digitsValue 0 (fmtUint u) = u := by
  simpa [digitsValue] using fmtDigits_value u u [] (le_refl u)

theorem fmtUint_injective {a b : Nat} (h : fmtUint a = fmtUint b) : a = b := by
  rw [← fmtUint_value a, ← fmtUint_value b, h]

theorem fmtUint_head (u : Nat) : ∃ c cs, fmtUint u = c :: cs ∧ IsDigit c := by
  cases h : fmtUint u with
  | nil => exact absurd h (fmtDigits_ne_nil u u [])
  | cons c cs => exact ⟨c, cs, rfl, fmtUint_digits u c (by simp [h])⟩

theorem fmtInt_no_slash (t : Int) : '/' ∉ fmtInt t := by
  intro h
  unfold fmtInt at h
  split at h
  · rcases List.mem_cons.mp h with h | h
    · exact absurd h (by decide)
    · exact (fmtUint_digits _ _ h).ne_slash rfl
  · exact (fmtUint_digits _ _ h).ne_slash rfl

/-- Splitting at the first dash. -/
theorem split_at_dash : ∀ (a b x y : List Char), '-' ∉ a → '-' ∉ b →
    a ++ '-' :: x = b ++ '-' :: y → a = b ∧ x = y := by
  intro a
  induction a with
  | nil =>
    intro b x y _ hb h
    cases b with
    | nil => simpa using h
    | cons c b =>
      simp only [List.nil_append, List.cons_append, List.cons.injEq] at h
      exact absurd (by simp [← h.1]) hb
  | cons c a ih =>
    intro b x y ha hb h
    cases b with
    | nil =>
      simp only [List.nil_append, List.cons_append, List.cons.injEq] at h
      exact absurd (by simp [h.1]) ha
    | cons d b =>
      simp only [List.cons_append, List.cons.injEq] at h
      obtain ⟨h1, h2⟩ := ih b x y (fun hm => ha (List.mem_cons_of_mem _ hm))
        (fun hm => hb (List.mem_cons_of_mem _ hm)) h.2
      exact ⟨by rw [h.1, h1], h2⟩

theorem fmtUint_no_dash (u : Nat) : '-' ∉ fmtUint u :=
  fun h => (fmtUint_digits u _ h).ne_dash rfl

theorem fmtInt_split (t1 t2 : Int) (x y : List Char)
    (h : fmtInt t1 ++ '-' :: x = fmtInt t2 ++ '-' :: y) : t1 = t2 ∧ x = y := by
  unfold fmtInt at h
  by_cases h1 : t1 < 0 <;> by_cases h2 : t2 < 0
  · rw [if_pos h1, if_pos h2] at h
    simp only [List.cons_append, List.cons.injEq, true_and] at h
    obtain ⟨ha, hb⟩ := split_at_dash _ _ _ _ (fmtUint_no_dash _) (fmtUint_no_dash _) h
    have := fmtUint_injective ha
    exact ⟨by omega, hb⟩
  · rw [if_pos h1, if_neg h2] at h
    obtain ⟨c, cs, hc, hd⟩ := fmtUint_head t2.natAbs
    rw [hc] at h
    simp only [List.cons_append, List.cons.injEq] at h
    exact absurd h.1.symm hd.ne_dash
  · rw [if_neg h1, if_pos h2] at h
    obtain ⟨c, cs, hc, hd⟩ := fmtUint_head t1.natAbs
    rw [hc] at h
    simp only [List.cons_append, List.cons.injEq] at h
    exact absurd h.1 hd.ne_dash
  · rw [if_neg h1, if_neg h2] at h
    obtain ⟨ha, hb⟩ := split_at_dash _ _ _ _ (fmtUint_no_dash _) (fmtUint_no_dash _) h
    have := fmtUint_injective ha
    exact ⟨by omega, hb⟩

theorem sprintfKey_data (t : Int) (b : String) :
    (sprintfKey t b).data = fmtInt t ++ '-' :: b.data := by
  simp [sprintfKey, String.data_append]


/-! ## Lemmas on `filepath.Base` -/

theorem lastElement_no_slash : ∀ l : List Char, '/' ∉ lastElement l := by
  intro l
  induction l with
  | nil => simp [lastElement]
  | cons c cs ih =>
    unfold lastElement
    split
    · simp
    · rename_i hc
      intro h
      rcases List.mem_cons.mp h with h | h
      · exact hc h.symm
      · exact ih h

theorem lastElement_split : ∀ l : List Char,
    ∃ rest, l = lastElement l ++ rest ∧ (rest = [] ∨ ∃ r, rest = '/' :: r) := by
  intro l
  induction l with
  | nil => exact ⟨[], by simp [lastElement]⟩
  | cons c cs ih =>
    unfold lastElement
    split
    · rename_i hc
      exact ⟨c :: cs, by simp, Or.inr ⟨cs, by rw [hc]⟩⟩
    · obtain ⟨rest, h1, h2⟩ := ih
      exact ⟨rest, by simpa using h1, h2⟩

theorem stripSeparators_split : ∀ l : List Char,
    ∃ pre, l = pre ++ stripSeparators l ∧ ∀ c ∈ pre, c = '/' := by
  intro l
  induction l with
  | nil => exact ⟨[], by simp [stripSeparators]⟩
  | cons c cs ih =>
    unfold stripSeparators
    split
    · rename_i hc
      obtain ⟨pre, h1, h2⟩ := ih
      refine ⟨c :: pre, by simpa using h1, ?_⟩
      intro x hx
      rcases List.mem_cons.mp hx with rfl | hx
      · exact hc
      · exact h2 x hx
    · exact ⟨[], by simp⟩

theorem stripSeparators_head : ∀ l : List Char, (∃ c ∈ l, c ≠ '/') →
    ∃ c cs, stripSeparators l = c :: cs ∧ c ≠ '/' := by
  intro l
  induction l with
  | nil => rintro ⟨c, hc, _⟩; simp at hc
  | cons c cs ih =>
    rintro ⟨x, hx, hne⟩
    unfold stripSeparators
    split
    · rename_i hc
      rcases List.mem_cons.mp hx with rfl | hx
      · exact absurd hc hne
      · exact ih ⟨x, hx, hne⟩
    · rename_i hc
      exact ⟨c, cs, rfl, hc⟩

theorem stripSeparators_slashes : ∀ l : List Char, (∀ c ∈ l, c = '/') →
    stripSeparators l = [] := by
  intro l
  induction l with
  | nil => intro _; rfl
  | cons c cs ih =>
    intro h
    unfold stripSeparators
    rw [if_pos (h c (by simp))]
    exact ih (fun x hx => h x (List.mem_cons_of_mem _ hx))

/-- The base of a path with a character other than the separator: its last
element, which is not empty, has no separator, and sits in the path between a
directory part (empty or ending in a separator) and trailing separators. -/
theorem Base_component (f : String) (h : ∃ c ∈ f.data, c ≠ '/') :
    (Base f).data ≠ [] ∧ '/' ∉ (Base f).data ∧
    ∃ dir trail, f.data = dir ++ (Base f).data ++ trail ∧ (∀ c ∈ trail, c = '/') ∧
      (dir = [] ∨ dir.getLast? = some '/') := by
  have hne : f ≠ "" := by
    rintro rfl
    obtain ⟨c, hc, _⟩ := h
    simp at hc
  have hrev : ∃ c ∈ f.data.reverse, c ≠ '/' := by
    obtain ⟨c, hc, hne⟩ := h
    exact ⟨c, by simpa using hc, hne⟩
  obtain ⟨c, cs, hs, hc⟩ := stripSeparators_head _ hrev
  obtain ⟨pre, hpre, hall⟩ := stripSeparators_split f.data.reverse
  obtain ⟨rest, hrest, hr⟩ := lastElement_split (stripSeparators f.data.reverse)
  have hlast : lastElement (stripSeparators f.data.reverse) ≠ [] := by
    rw [hs]
    unfold lastElement
    rw [if_neg hc]
    simp
  have hB : (Base f).data = (lastElement (stripSeparators f.data.reverse)).reverse := by
    unfold Base
    rw [if_neg hne]
    simp [hlast]
  refine ⟨?_, ?_, rest.reverse, pre.reverse, ?_, ?_, ?_⟩
  · rw [hB]; simpa using hlast
  · rw [hB]
    intro hm
    exact lastElement_no_slash _ (by simpa using hm)
  · rw [hB]
    have h1 : f.data.reverse
        = pre ++ (lastElement (stripSeparators f.data.reverse) ++ rest) := by
      rw [← hrest]; exact hpre
    have h2 := congrArg List.reverse h1
    simpa [List.append_assoc] using h2
  · intro x hx
    exact hall x (by simpa using hx)
  · rcases hr with rfl | ⟨r, rfl⟩
    · exact Or.inl rfl
    · right
      simp

/-- The base of a non-empty path of separators only is a single separator. -/
theorem Base_slashes (f : String) (hne : f ≠ "") (h : ∀ c ∈ f.data, c = '/') :
    Base f = "/" := by
  unfold Base
  rw [if_neg hne]
  rw [stripSeparators_slashes _ (by intro c hc; exact h c (by simpa using hc))]
  simp [lastElement]

theorem sprintfKey_no_slash (t : Int) (b : String) (hb : '/' ∉ b.data) :
    '/' ∉ (sprintfKey t b).data := by
  rw [sprintfKey_data]
  intro h
  rcases List.mem_append.mp h with h | h
  · exact fmtInt_no_slash t h
  · rcases List.mem_cons.mp h with h | h
    · exact absurd h (by decide)
    · exact hb h

/-! ## The four ways through the handler -/

theorem handler_notPost (env : World) (r : Request) (hm : r.Method ≠ "POST") :
    uploadFileHandler env r =
      { w := { status := some 405, written := ["Invalid request method\n"] },
        uploads := [], log := [] } := by
  have hm' : r.Method ≠ MethodPost := hm
  simp [uploadFileHandler, uploadFileHandlerFrom, hm', Trace.init, httpError,
    ResponseWriter.WriteHeader, ResponseWriter.Write, StatusMethodNotAllowed]

theorem handler_noFile (env : World) (r : Request) (e : String) (hm : r.Method = "POST")
    (hf : env.FormFile (env.ParseMultipartForm r (10 <<< 20)).1 "file" = Except.error e) :
    uploadFileHandler env r =
      { w := { status := some 500, written := ["Error retrieving the file\n"] },
        uploads := [], log := [] } := by
  have hm' : r.Method = MethodPost := hm
  have hf' : env.FormFile (env.ParseMultipartForm r 10485760).1 "file" = _ := hf
  simp [uploadFileHandler, uploadFileHandlerFrom, hm', hf', Trace.init, httpError,
    ResponseWriter.WriteHeader, ResponseWriter.Write, StatusInternalServerError]

theorem handler_uploadFails (env : World) (r : Request) (file : List Nat)
    (handler : FileHeader) (e : String) (hm : r.Method = "POST")
    (hf : env.FormFile (env.ParseMultipartForm r (10 <<< 20)).1 "file"
      = Except.ok (file, handler))
    (hu : env.Upload { Bucket := bucketName, Key := objectKey env.now handler.Filename,
                       Body := file } = some e) :
    uploadFileHandler env r =
      { w := { status := some 500, written := ["Error uploading the file to S3\n"] },
        uploads := [{ Bucket := bucketName, Key := objectKey env.now handler.Filename,
                      Body := file }],
        log := ["Failed to upload file to S3: " ++ e] } := by
  have hm' : r.Method = MethodPost := hm
  have hf' : env.FormFile (env.ParseMultipartForm r 10485760).1 "file" = _ := hf
  simp [uploadFileHandler, uploadFileHandlerFrom, hm', hf', uploadToS3, hu, Trace.init,
    httpError, ResponseWriter.WriteHeader, ResponseWriter.Write, StatusInternalServerError]

theorem handler_uploaded (env : World) (r : Request) (file : List Nat)
    (handler : FileHeader) (hm : r.Method = "POST")
    (hf : env.FormFile (env.ParseMultipartForm r (10 <<< 20)).1 "file"
      = Except.ok (file, handler))
    (hu : env.Upload { Bucket := bucketName, Key := objectKey env.now handler.Filename,
                       Body := file } = none) :
    uploadFileHandler env r =
      { w := { status := some 200,
               written := ["File uploaded successfully: "
                 ++ fileURL (objectKey env.now handler.Filename) ++ "\n"] },
        uploads := [{ Bucket := bucketName, Key := objectKey env.now handler.Filename,
                      Body := file }],
        log := ["File uploaded successfully to S3: "
                 ++ objectKey env.now handler.Filename] } := by
  have hm' : r.Method = MethodPost := hm
  have hf' : env.FormFile (env.ParseMultipartForm r 10485760).1 "file" = _ := hf
  simp [uploadFileHandler, uploadFileHandlerFrom, hm', hf', uploadToS3, hu, Trace.init,
    ResponseWriter.WriteHeader, ResponseWriter.Write, StatusOK]

/-- Every run of the handler takes one of its four ways. -/
theorem handler_cases (env : World) (r : Request) :
    (r.Method ≠ "POST" ∧ uploadFileHandler env r =
      { w := { status := some 405, written := ["Invalid request method\n"] },
        uploads := [], log := [] }) ∨
    (r.Method = "POST" ∧
      (∃ e, env.FormFile (env.ParseMultipartForm r (10 <<< 20)).1 "file" = Except.error e) ∧
      uploadFileHandler env r =
      { w := { status := some 500, written := ["Error retrieving the file\n"] },
        uploads := [], log := [] }) ∨
    (r.Method = "POST" ∧ ∃ file handler e,
      env.FormFile (env.ParseMultipartForm r (10 <<< 20)).1 "file"
        = Except.ok (file, handler) ∧
      env.Upload { Bucket := bucketName, Key := objectKey env.now handler.Filename,
                   Body := file } = some e ∧
      uploadFileHandler env r =
      { w := { status := some 500, written := ["Error uploading the file to S3\n"] },
        uploads := [{ Bucket := bucketName, Key := objectKey env.now handler.Filename,
                      Body := file }],
        log := ["Failed to upload file to S3: " ++ e] }) ∨
    (r.Method = "POST" ∧ ∃ file handler,
      env.FormFile (env.ParseMultipartForm r (10 <<< 20)).1 "file"
        = Except.ok (file, handler) ∧
      env.Upload { Bucket := bucketName, Key := objectKey env.now handler.Filename,
                   Body := file } = none ∧
      uploadFileHandler env r =
      { w := { status := some 200,
               written := ["File uploaded successfully: "
                 ++ fileURL (objectKey env.now handler.Filename) ++ "\n"] },
        uploads := [{ Bucket := bucketName, Key := objectKey env.now handler.Filename,
                      Body := file }],
        log := ["File uploaded successfully to S3: "
                 ++ objectKey env.now handler.Filename] }) := by
  by_cases hm : r.Method = "POST"
  · right
    cases hf : env.FormFile (env.ParseMultipartForm r (10 <<< 20)).1 "file" with
    | error e => exact Or.inl ⟨hm, ⟨e, rfl⟩, handler_noFile env r e hm hf⟩
    | ok p =>
      obtain ⟨file, handler⟩ := p
      right
      cases hu : env.Upload
          (PutObjectInput.mk bucketName (objectKey env.now handler.Filename) file) with
      | some e =>
        exact Or.inl ⟨hm, file, handler, e, rfl, hu,
          handler_uploadFails env r file handler e hm hf hu⟩
      | none =>
        exact Or.inr ⟨hm, file, handler, rfl, hu, handler_uploaded env r file handler hm hf hu⟩
  · exact Or.inl ⟨hm, handler_notPost env r hm⟩

theorem body_single (st : Option Nat) (x : String) :
    ResponseWriter.body { status := st, written := [x] } = x := by
  simp [ResponseWriter.body, String.join]

/-! ## Go's form reader -/

/-- With Go's library, a file of more than `10 << 20` bytes is read from the
temporary file it was written to, and `FormFile` returns all of it. -/
theorem FormFile_spooled (d : List Nat) (hd : 10 <<< 20 < d.length) :
    FormFile (ParseMultipartForm (postFile "big.bin" d) (10 <<< 20)).1 "file" =
      Except.ok (d, { Filename := "big.bin", Size := d.length, content := none,
                      tmpfile := d }) := by
  have hH : mimeHeaderSize (fileMIMEHeader "file" "big.bin") = 897 := by decide
  have hC : headerCount (fileMIMEHeader "file" "big.bin") = 2 := by decide
  have hN : ("file" : String).utf8ByteSize = 4 := by decide
  have hd' : (10485760 : Int) < (d.length : Int) := by
    have : 10485760 < d.length := hd
    exact_mod_cast this
  have hfit : (10485760 : Int) < min (d.length : Int) (10485760 + 1) := by
    rw [lt_min_iff]
    exact ⟨hd', by norm_num⟩
  have hread : ReadForm [filePart "file" "big.bin" d] (10 <<< 20) =
      Except.ok [("file", { Filename := "big.bin", Size := d.length, content := none,
                            tmpfile := d })] := by
    have hdn : 10485760 < d.length := hd
    simp [ReadForm, readForm, filePart, hH, hC, hN, hfit, hdn]
  simp only [postFile, formRequest, ParseMultipartForm, hread, FormFile]
  simp [FileHeader.Open]

/-- With Go's library and a storage call that succeeds, a `POST` whose one field
`file` carries more than `10 << 20` bytes is uploaded whole and answered with 200. -/
theorem spooled_upload_stored (t : Int) (d : List Nat) (hd : 10 <<< 20 < d.length) :
    uploadFileHandler (okWorld t) (postFile "big.bin" d) =
      { w := { status := some 200,
               written := ["File uploaded successfully: "
                 ++ fileURL (objectKey t "big.bin") ++ "\n"] },
        uploads := [{ Bucket := bucketName, Key := objectKey t "big.bin", Body := d }],
        log := ["File uploaded successfully to S3: " ++ objectKey t "big.bin"] } :=
  handler_uploaded (okWorld t) (postFile "big.bin" d) d
    { Filename := "big.bin", Size := d.length, content := none, tmpfile := d }
    rfl (FormFile_spooled d hd) rfl

theorem mimeHeaderSize_nonneg (h : List (String × List String)) : 0 ≤ mimeHeaderSize h := by
  unfold mimeHeaderSize
  have hsum : (0 : Int) ≤ (h.map (fun kv =>
      (kv.1.utf8ByteSize : Int) + 200
        + (kv.2.map (fun v => (v.utf8ByteSize : Int))).sum)).sum := by
    apply List.sum_nonneg
    intro x hx
    obtain ⟨kv, _, rfl⟩ := List.mem_map.mp hx
    have h2 : (0 : Int) ≤ (kv.2.map (fun v => (v.utf8ByteSize : Int))).sum := by
      apply List.sum_nonneg
      intro y hy
      obtain ⟨v, _, rfl⟩ := List.mem_map.mp hy
      exact Int.ofNat_nonneg _
    have h1 : (0 : Int) ≤ (kv.1.utf8ByteSize : Int) := Int.ofNat_nonneg _
    omega
  omega

/-- A form with a plain value of more bytes than the memory allowed is refused,
wherever the value stands in the form. -/
theorem readForm_large_value : ∀ (parts : List Part) (maxParts : Nat)
    (maxHeaders maxFileMemoryBytes maxMemoryBytes : Int), 0 ≤ maxFileMemoryBytes →
    (∃ p ∈ parts, p.FormName ≠ "" ∧ p.FileName = "" ∧ maxMemoryBytes < p.data.length) →
    ∃ e, readForm parts maxParts maxHeaders maxFileMemoryBytes maxMemoryBytes
      = Except.error e := by
  intro parts
  induction parts with
  | nil =>
    rintro _ _ _ _ _ ⟨p, hp, _⟩
    simp at hp
  | cons p ps ih =>
    intro maxParts mh mf mm hmf hex
    have hsz : (0 : Int) ≤ (p.FormName.utf8ByteSize : Int) := Int.ofNat_nonneg _
    have hH := mimeHeaderSize_nonneg p.Header
    obtain ⟨q, hq, hqn, hqf, hql⟩ := hex
    simp only [readForm]
    rcases List.mem_cons.mp hq with rfl | hq'
    · simp only [hqn, hqf, if_false, if_true]
      split_ifs <;> first
        | exact ⟨_, rfl⟩
        | (exfalso; omega)
    · have tail : ∀ (k : Nat) (a b c : Int), 0 ≤ b → c ≤ mm →
          ∃ e, readForm ps k a b c = Except.error e :=
        fun k a b c hb hc => ih k a b c hb ⟨q, hq', hqn, hqf, lt_of_le_of_lt hc hql⟩
      split_ifs <;> first
        | exact ⟨_, rfl⟩
        | exact tail _ _ _ _ hmf (le_refl _)
        | exact tail _ _ _ _ hmf (by omega)
        | (obtain ⟨e, he⟩ := tail (maxParts - 1) (mh - headerCount p.Header) mf
            (mm - p.FormName.utf8ByteSize - 200 - mimeHeaderSize p.Header - 200 - 100)
            hmf (by omega)
           rw [he]
           exact ⟨_, rfl⟩)
        | (obtain ⟨e, he⟩ := tail (maxParts - 1) (mh - headerCount p.Header)
            (mf - min (p.data.length : Int) (mf + 1))
            (mm - p.FormName.utf8ByteSize - 200 - mimeHeaderSize p.Header - 200 - 100
              - min (p.data.length : Int) (mf + 1))
            (by omega) (by omega)
           rw [he]
           exact ⟨_, rfl⟩)

/-- With Go's library, a `POST` whose form holds a plain value of more bytes than
`10 << 20` plus 10 MB, before or after the file, is answered with status 500 and
nothing is uploaded. -/
theorem large_value_anywhere_rejected (env : World)
    (hp : env.ParseMultipartForm = ParseMultipartForm) (hf : env.FormFile = FormFile)
    (parts : List Part)
    (h : ∃ p ∈ parts, p.FormName ≠ "" ∧ p.FileName = "" ∧
      10 <<< 20 + 10 <<< 20 < p.data.length) :
    uploadFileHandler env (formRequest "POST" parts) =
      { w := { status := some 500, written := ["Error retrieving the file\n"] },
        uploads := [], log := [] } := by
  obtain ⟨p, hpm, hn, hfn, hl⟩ := h
  have hl' : (((10 <<< 20 : Nat) : Int) + 10 <<< 20) < (p.data.length : Int) := by
    have : 20971520 < p.data.length := hl
    have h2 : (((10 <<< 20 : Nat) : Int) + 10 <<< 20) = 20971520 := by decide
    rw [h2]
    exact_mod_cast this
  obtain ⟨e, he⟩ := readForm_large_value parts 1000 10000 ((10 <<< 20 : Nat) : Int)
    (((10 <<< 20 : Nat) : Int) + 10 <<< 20) (Int.ofNat_nonneg _) ⟨p, hpm, hn, hfn, hl'⟩
  refine handler_noFile env _ ErrNotMultipart rfl ?_
  rw [hp, hf]
  simp only [ParseMultipartForm, formRequest, ReadForm, he, FormFile]

/-- Claim C2, refuted as stated: the filename `/` contains a path separator, and the
key derived from it at time 1700000000 is `1700000000-` followed by `/`, so it
contains `/`; the handler uploads under that key. -/
theorem root_filename_key_has_separator :
    '/' ∈ ("/" : String).data ∧
    objectKey 1700000000 "/" = "1700000000-/" ∧
    '/' ∈ (objectKey 1700000000 "/").data ∧
    (uploadFileHandler (okWorld 1700000000) (postFile "/" [1, 2, 3])).uploads =
      [{ Bucket := "file-upload-project-dt", Key := "1700000000-/", Body := [1, 2, 3] }] := by
  decide

/-- Claim C2, amended: for every filename `f` with a character other than `/`, the
key is `decimal(t)-` followed by the base of `f`; the base is not empty, has no `/`
and is the last element of `f` (what comes before it is empty or ends in `/`, what
comes after it is only `/`), so the key contains no `/`; the key of
`../../etc/passwd` is `decimal(t)-passwd`; and the key of a non-empty filename made
of `/` only is `decimal(t)-` followed by one `/`. -/
theorem key_holds_base_only (t : Int) (f : String) (h : ∃ c ∈ f.data, c ≠ '/') :
    objectKey t f = String.mk (fmtInt t) ++ "-" ++ Base f ∧
    '/' ∉ (objectKey t f).data ∧
    (Base f).data ≠ [] ∧
    '/' ∉ (Base f).data ∧
    (∃ dir trail, f.data = dir ++ (Base f).data ++ trail ∧ (∀ c ∈ trail, c = '/') ∧
      (dir = [] ∨ dir.getLast? = some '/')) ∧
    objectKey t "../../etc/passwd" = String.mk (fmtInt t) ++ "-passwd" ∧
    (∀ g : String, g ≠ "" → (∀ c ∈ g.data, c = '/') →
      objectKey t g = String.mk (fmtInt t) ++ "-" ++ "/") := by
  obtain ⟨h1, h2, h3⟩ := Base_component f h
  refine ⟨rfl, sprintfKey_no_slash t _ h2, h1, h2, h3, ?_, ?_⟩
  · have hb : Base "../../etc/passwd" = "passwd" := by decide
    unfold objectKey sprintfKey
    rw [hb, String.append_assoc]
    rfl
  · intro g hg hall
    unfold objectKey sprintfKey
    rw [Base_slashes g hg hall]

/-- Claim C2, amended, at `../../etc/passwd` and time 1700000000. -/
theorem key_holds_base_only_witness :
    '/' ∉ (objectKey 1700000000 "../../etc/passwd").data ∧
    objectKey 1700000000 "../../etc/passwd" = String.mk (fmtInt 1700000000) ++ "-passwd" :=
  ⟨(key_holds_base_only 1700000000 "../../etc/passwd" ⟨'.', by decide, by decide⟩).2.1,
   (key_holds_base_only 1700000000 "../../etc/passwd" ⟨'.', by decide, by decide⟩).2.2.2.2.2.1⟩

/-- Claim C3: a request whose method is not `POST` is answered with status 405, and
no call to the uploader is made, whatever the body of the request and whatever the
library would do with it. -/
theorem non_post_is_405_without_upload (env : World) (r : Request)
    (hm : r.Method ≠ "POST") :
    (uploadFileHandler env r).w.status = some 405 ∧
    (uploadFileHandler env r).uploads = [] := by
  rw [handler_notPost env r hm]
  exact ⟨rfl, rfl⟩

/-- Claim C3 at a `GET` that carries a well-formed file field. -/
theorem non_post_is_405_without_upload_witness :
    (uploadFileHandler (okWorld 1700000000)
      (formRequest "GET" [filePart "file" "a.txt" [1, 2, 3]])).w.status = some 405 ∧
    (uploadFileHandler (okWorld 1700000000)
      (formRequest "GET" [filePart "file" "a.txt" [1, 2, 3]])).uploads = [] :=
  non_post_is_405_without_upload (okWorld 1700000000)
    (formRequest "GET" [filePart "file" "a.txt" [1, 2, 3]]) (by decide)

/-- Claim C4, refuted as stated: a `POST` whose form has no field `file` is answered
with status 500, but the body is not the bare text `Error retrieving the file`:
`http.Error` ends the message with a newline. -/
theorem missing_file_body_is_not_bare_text :
    (uploadFileHandler (okWorld 1700000000) (formRequest "POST" [])).w.status = some 500 ∧
    (uploadFileHandler (okWorld 1700000000) (formRequest "POST" [])).w.body
      ≠ "Error retrieving the file" ∧
    (uploadFileHandler (okWorld 1700000000) (formRequest "POST" [])).w.body
      = "Error retrieving the file\n" := by
  decide

/-- Claim C4, amended: for every `POST` for which `r.FormFile("file")`, called after
`r.ParseMultipartForm(10 << 20)`, fails, the status is 500, the body is
`Error retrieving the file` followed by a newline, and no call to the uploader is
made. This holds whatever the two library calls do. -/
theorem missing_file_is_500_without_upload (env : World) (r : Request) (e : String)
    (hm : r.Method = "POST")
    (hf : env.FormFile (env.ParseMultipartForm r (10 <<< 20)).1 "file" = Except.error e) :
    (uploadFileHandler env r).w.status = some 500 ∧
    (uploadFileHandler env r).w.body = "Error retrieving the file\n" ∧
    (uploadFileHandler env r).uploads = [] := by
  rw [handler_noFile env r e hm hf, body_single]
  exact ⟨rfl, rfl, rfl⟩

/-- Claim C4, amended, at a `POST` whose body cannot be read as a form, with Go's
library. -/
theorem missing_file_is_500_without_upload_witness :
    (uploadFileHandler (okWorld 1700000000)
      { Method := "POST", Body := Body.unreadable, MultipartForm := none }).w.status
      = some 500 ∧
    (uploadFileHandler (okWorld 1700000000)
      { Method := "POST", Body := Body.unreadable, MultipartForm := none }).w.body
      = "Error retrieving the file\n" ∧
    (uploadFileHandler (okWorld 1700000000)
      { Method := "POST", Body := Body.unreadable, MultipartForm := none }).uploads = [] :=
  missing_file_is_500_without_upload (okWorld 1700000000)
    { Method := "POST", Body := Body.unreadable, MultipartForm := none }
    "request Content-Type isn't multipart/form-data" rfl rfl

/-- Claim C5, at a failing input: a `POST` whose only field `file` carries the
11 MiB of `bigFile`, more than `10 << 20` bytes, is not rejected. Go's form reader
writes the file to a temporary file instead of keeping it in memory, `FormFile`
returns it, the uploader is called with all of it and the status is 200. -/
theorem oversized_upload_is_stored :
    10 <<< 20 < bigFile.length ∧
    FormFile (ParseMultipartForm (postFile "big.bin" bigFile) (10 <<< 20)).1 "file" =
      Except.ok (bigFile, { Filename := "big.bin", Size := bigFile.length,
                            content := none, tmpfile := bigFile }) ∧
    (uploadFileHandler (okWorld 1700000000) (postFile "big.bin" bigFile)).w.status
      = some 200 ∧
    (uploadFileHandler (okWorld 1700000000) (postFile "big.bin" bigFile)).uploads =
      [{ Bucket := "file-upload-project-dt", Key := "1700000000-big.bin",
         Body := bigFile }] := by
  have hlen : bigFile.length = 11534336 := List.length_replicate _ _
  have hbig : 10 <<< 20 < bigFile.length := by rw [hlen]; decide
  have hk : objectKey 1700000000 "big.bin" = "1700000000-big.bin" := by decide
  refine ⟨hbig, FormFile_spooled bigFile hbig, ?_, ?_⟩
  · rw [spooled_upload_stored 1700000000 bigFile hbig]
  · rw [spooled_upload_stored 1700000000 bigFile hbig]
    show [PutObjectInput.mk bucketName (objectKey 1700000000 "big.bin") bigFile] = _
    rw [hk]
    rfl

/-- Claim C7: for every filename the keys derived at two Unix times are equal exactly
when the two times are equal: different times give different keys, the same time
gives the same key. -/
theorem key_eq_iff_same_time (f : String) (t1 t2 : Int) :
    objectKey t1 f = objectKey t2 f ↔ t1 = t2 := by
  constructor
  · intro h
    have hd := congrArg String.data h
    unfold objectKey at hd
    rw [sprintfKey_data, sprintfKey_data] at hd
    exact (fmtInt_split _ _ _ _ hd).1
  · intro h
    rw [h]

/-- Claim C9, refuted as stated: the answer to a `GET` has status 405, and its body
is not the bare text `Invalid request method` (nor any of the other texts the claim
lists): `http.Error` ends the message with a newline. -/
theorem method_error_body_is_not_bare_text :
    (uploadFileHandler (okWorld 1700000000) (formRequest "GET" [])).w.status = some 405 ∧
    (uploadFileHandler (okWorld 1700000000) (formRequest "GET" [])).w.body
      ≠ "Invalid request method" ∧
    (uploadFileHandler (okWorld 1700000000) (formRequest "GET" [])).w.body
      = "Invalid request method\n" := by
  decide

/-- Claim C9, amended: every run of the handler writes once, and the response is one
of four: 405 with `Invalid request method`, 500 with `Error retrieving the file`,
500 with `Error uploading the file to S3`, each text followed by a newline, or 200
with the success line; the status is 200, 405 or 500, and it is 200 exactly when the
method is `POST`, `r.FormFile("file")`, called after `r.ParseMultipartForm(10 << 20)`,
returns a file and the storage call succeeds. This holds whatever the two library
calls do. -/
theorem four_outcomes (env : World) (r : Request) :
    (uploadFileHandler env r).w.written.length = 1 ∧
    ((uploadFileHandler env r).w
        = { status := some 405, written := ["Invalid request method\n"] } ∨
      (uploadFileHandler env r).w
        = { status := some 500, written := ["Error retrieving the file\n"] } ∨
      (uploadFileHandler env r).w
        = { status := some 500, written := ["Error uploading the file to S3\n"] } ∨
      ∃ key, (uploadFileHandler env r).w
        = { status := some 200,
            written := ["File uploaded successfully: " ++ fileURL key ++ "\n"] }) ∧
    ((uploadFileHandler env r).w.status = some 200 ∨
      (uploadFileHandler env r).w.status = some 405 ∨
      (uploadFileHandler env r).w.status = some 500) ∧
    ((uploadFileHandler env r).w.status = some 200 ↔
      r.Method = "POST" ∧ ∃ file handler,
        env.FormFile (env.ParseMultipartForm r (10 <<< 20)).1 "file"
          = Except.ok (file, handler) ∧
        env.Upload { Bucket := bucketName, Key := objectKey env.now handler.Filename,
                     Body := file } = none) := by
  rcases handler_cases env r with ⟨hm, h⟩ | ⟨hm, ⟨e, hf⟩, h⟩ |
    ⟨hm, file, handler, e, hf, hu, h⟩ | ⟨hm, file, handler, hf, hu, h⟩
  · rw [h]
    refine ⟨rfl, Or.inl rfl, Or.inr (Or.inl rfl), ?_⟩
    constructor
    · intro h2; simp at h2
    · rintro ⟨h2, _⟩; exact absurd h2 hm
  · rw [h]
    refine ⟨rfl, Or.inr (Or.inl rfl), Or.inr (Or.inr rfl), ?_⟩
    constructor
    · intro h2; simp at h2
    · rintro ⟨_, file, handler, hf2, _⟩
      rw [hf] at hf2
      cases hf2
  · rw [h]
    refine ⟨rfl, Or.inr (Or.inr (Or.inl rfl)), Or.inr (Or.inr rfl), ?_⟩
    constructor
    · intro h2; simp at h2
    · rintro ⟨_, file2, handler2, hf2, hu2⟩
      rw [hf] at hf2
      cases hf2
      rw [hu] at hu2
      cases hu2
  · rw [h]
    exact ⟨rfl, Or.inr (Or.inr (Or.inr ⟨_, rfl⟩)), Or.inl rfl,
      fun _ => ⟨hm, file, handler, hf, hu⟩, fun _ => rfl⟩

/-- Claim C10: the format `%d-%s` of the key is injective: for all integers `t1`, `t2`
and all strings `b1`, `b2`, the formatted keys are equal exactly when `t1 = t2` and
`b1 = b2`; hence the keys of two requests are equal exactly when their times and the
bases of their filenames are. -/
theorem key_format_injective (t1 t2 : Int) (b1 b2 f1 f2 : String) :
    (sprintfKey t1 b1 = sprintfKey t2 b2 ↔ t1 = t2 ∧ b1 = b2) ∧
    (objectKey t1 f1 = objectKey t2 f2 ↔ t1 = t2 ∧ Base f1 = Base f2) := by
  have key : ∀ x y : String, sprintfKey t1 x = sprintfKey t2 y ↔ t1 = t2 ∧ x = y := by
    intro x y
    constructor
    · intro h
      have hd := congrArg String.data h
      rw [sprintfKey_data, sprintfKey_data] at hd
      obtain ⟨ht, hb⟩ := fmtInt_split _ _ _ _ hd
      exact ⟨ht, String.ext hb⟩
    · rintro ⟨rfl, rfl⟩
      rfl
  exact ⟨key b1 b2, key (Base f1) (Base f2)⟩

end S3Upload
